/-
Verification of the chess-gantry firmware core against its specification.

Each C module used by the claims is shallowly embedded: machine integers
become `Nat` (with explicit masks/bounds where width matters), byte streams
become `List Nat`, fallible operations return `Option`, and the mutable
module state is passed explicitly.  Definitions mirror the C sources
(`command_queue.c`, `chessboard.c`, `raspberrypi.c`, `gantry.c`,
`switch.c`); repository code that is not present under the sources
(headers and `utils.c`) is modelled from the specification and marked as
such in its doc comment.
-/
import Mathlib

namespace Capstone

/-! ## Command queue (`command_queue.c`)

The queue is a static array of `COMMAND_QUEUE_SIZE` pointer slots with a
`head` write index and a `tail` read index (both `uint16_t`).  Pointers are
modelled as `Nat` values; the slot array as a 128-element list. -/

def COMMAND_QUEUE_SIZE : Nat := 128

structure CQState where
  slots : List Nat
  head : Nat
  tail : Nat
  deriving Repr, DecidableEq

/-- `command_queue_init`: head and tail reset to 0 (slot contents are
irrelevant; the embedding zeroes them). -/
def command_queue_init : CQState :=
  { slots := List.replicate COMMAND_QUEUE_SIZE 0, head := 0, tail := 0 }

/-- `command_queue_is_empty`: the queue reports empty when `head == tail`. -/
def command_queue_is_empty (s : CQState) : Bool :=
  s.head == s.tail

/-- `command_queue_get_size`: `head - tail` when `head >= tail`, else
`COMMAND_QUEUE_SIZE - (tail - head) + 1`. -/
def command_queue_get_size (s : CQState) : Nat :=
  if s.tail ≤ s.head then
    s.head - s.tail
  else
    COMMAND_QUEUE_SIZE - (s.tail - s.head) + 1

/-- `command_queue_push`: fails when `get_size == COMMAND_QUEUE_SIZE`;
otherwise stores at `head` and advances `head` with wraparound. -/
def command_queue_push (s : CQState) (value : Nat) : CQState × Bool :=
  if command_queue_get_size s == COMMAND_QUEUE_SIZE then
    (s, false)
  else
    let slots := s.slots.set s.head value
    let h := s.head + 1
    ({ slots := slots, head := if COMMAND_QUEUE_SIZE ≤ h then 0 else h,
       tail := s.tail }, true)

/-- `command_queue_pop`: fails when empty; otherwise returns the slot at
`tail` and advances `tail` with wraparound. -/
def command_queue_pop (s : CQState) : CQState × Option Nat :=
  if command_queue_is_empty s then
    (s, none)
  else
    let v := s.slots.getD s.tail 0
    let t := s.tail + 1
    ({ s with tail := if COMMAND_QUEUE_SIZE ≤ t then 0 else t }, some v)

/-- Push a whole list of values in order, recording whether every push
reported success. -/
def command_queue_push_all (s : CQState) (vs : List Nat) : CQState × Bool :=
  vs.foldl (fun acc v =>
    let r := command_queue_push acc.1 v
    (r.1, acc.2 && r.2)) (s, true)

set_option maxRecDepth 100000

/-- C1 (code bug).  Pushing 128 values onto a freshly initialized queue
succeeds every time, but afterwards `head` has wrapped back to `tail`, so
the queue reports itself empty: `is_empty` is true, `get_size` is 0, and
the first pop fails instead of yielding the first pushed pointer.  The
FIFO law claimed for n = 128 is therefore violated by the code. -/
theorem command_queue_full_wrap_bug :
    (command_queue_push_all command_queue_init
      ((List.range COMMAND_QUEUE_SIZE).map Nat.succ)).2 = true ∧
    command_queue_is_empty (command_queue_push_all command_queue_init
      ((List.range COMMAND_QUEUE_SIZE).map Nat.succ)).1 = true ∧
    command_queue_get_size (command_queue_push_all command_queue_init
      ((List.range COMMAND_QUEUE_SIZE).map Nat.succ)).1 = 0 ∧
    (command_queue_pop (command_queue_push_all command_queue_init
      ((List.range COMMAND_QUEUE_SIZE).map Nat.succ)).1).2 = none := by
  decide

/-! ## Chess board (`chessboard.c`)

A board is a 64-bit presence bitmask together with an 8×8 grid of piece
symbols; squares are indexed `rank*8 + file`. -/

structure chess_board_t where
  board_presence : Nat
  board_pieces : List Char
  deriving Repr, DecidableEq

/-- `chessboard_square_to_index`: two `switch` statements accumulate the
rank contribution (`'1'` ↦ 0, …, `'8'` ↦ 56, default 0) and the file
contribution (`'a'` ↦ 0, …, `'h'` ↦ 7, default 0). -/
def chessboard_square_to_index (file rank : Char) : Nat :=
  let index : Nat :=
    match rank with
    | '1' => 0
    | '2' => 8
    | '3' => 16
    | '4' => 24
    | '5' => 32
    | '6' => 40
    | '7' => 48
    | '8' => 56
    | _ => 0
  let index : Nat := index +
    match file with
    | 'a' => 0
    | 'b' => 1
    | 'c' => 2
    | 'd' => 3
    | 'e' => 4
    | 'f' => 5
    | 'g' => 6
    | 'h' => 7
    | _ => 0
  index

/-- `chessboard_index_to_square`: indices above 63 produce the sentinel
square `"??"`; otherwise file = `index % 8 + 'a'`, rank = `index / 8 + '1'`.
The two written characters are returned as a pair. -/
def chessboard_index_to_square (index : Nat) : Char × Char :=
  if 63 < index then
    ('?', '?')
  else
    (Char.ofNat (index % 8 + 'a'.toNat), Char.ofNat (index / 8 + '1'.toNat))

/-- C8.  Square/index round trip: converting any index `i < 64` to a square
and back returns `i`; any index above 63 (within the `uint8_t` range of the
argument) yields the sentinel square `('?', '?')`. -/
theorem chessboard_index_square_roundtrip (i : Nat) :
    (i < 64 →
      chessboard_square_to_index (chessboard_index_to_square i).1
        (chessboard_index_to_square i).2 = i) ∧
    (63 < i → i < 256 → chessboard_index_to_square i = ('?', '?')) := by
  constructor
  · intro h
    revert h
    revert i
    decide
  · intro h _
    simp [chessboard_index_to_square, h]

/-- Witness for C8 at the concrete indices 12 (square e2) and 200. -/
theorem chessboard_index_square_roundtrip_witness :
    chessboard_square_to_index (chessboard_index_to_square 12).1
      (chessboard_index_to_square 12).2 = 12 ∧
    chessboard_index_to_square 200 = ('?', '?') :=
  ⟨(chessboard_index_square_roundtrip 12).1 (by decide),
   (chessboard_index_square_roundtrip 200).2 (by decide) (by decide)⟩

/-! ## Move inference (`chessboard_get_move`) -/

/-- Modelled from the spec: `utils_get_board_changes` (defined in `utils.c`,
which is not among the sources) collects the indices of the set bits of the
64-square change mask; `num_changes` is the length of this list and
`index1`/`index2` are its first two entries. -/
def utils_get_board_changes (changes : Nat) : List Nat :=
  (List.range 64).filter (fun k => changes.testBit k)

/-- Modelled from the spec: white king-side castling footprint — squares
e1, f1, g1, h1 (bits 4–7).  The `CASTLE_WHITE_K` constant itself lives in a
header not present in the sources. -/
def CASTLE_WHITE_K : Nat := 0xF0

/-- Modelled from the spec: white queen-side castling footprint — squares
a1, c1, d1, e1 (bits 0, 2, 3, 4). -/
def CASTLE_WHITE_Q : Nat := 0x1D

/-- Modelled from the spec: black king-side castling footprint — squares
e8, f8, g8, h8 (bits 60–63). -/
def CASTLE_BLACK_K : Nat := 0xF000000000000000

/-- Modelled from the spec: black queen-side castling footprint — squares
a8, c8, d8, e8 (bits 56, 58, 59, 60). -/
def CASTLE_BLACK_Q : Nat := 0x1D00000000000000

/-- `chessboard_get_move`: XOR the two presence masks, collect the changed
indices, and classify: 2 changes give an ordinary move (the index whose bit
is set in the previous board is the source), 4 changes must match one of
the four castling footprints, anything else is rejected (`none`). -/
def chessboard_get_move (previous current : chess_board_t) : Option (List Char) :=
  let changes_in_presence := previous.board_presence ^^^ current.board_presence
  let idxs := utils_get_board_changes changes_in_presence
  if idxs.length = 2 then
    let index1 := idxs.getD 0 0xFF
    let index2 := idxs.getD 1 0xFF
    if previous.board_presence.testBit index1 then
      some [(chessboard_index_to_square index1).1, (chessboard_index_to_square index1).2,
            (chessboard_index_to_square index2).1, (chessboard_index_to_square index2).2, '_']
    else
      some [(chessboard_index_to_square index2).1, (chessboard_index_to_square index2).2,
            (chessboard_index_to_square index1).1, (chessboard_index_to_square index1).2, '_']
  else if idxs.length = 4 then
    if changes_in_presence = CASTLE_WHITE_K then some ['e', '1', 'g', '1', '_']
    else if changes_in_presence = CASTLE_WHITE_Q then some ['e', '1', 'c', '1', '_']
    else if changes_in_presence = CASTLE_BLACK_K then some ['e', '8', 'g', '8', '_']
    else if changes_in_presence = CASTLE_BLACK_Q then some ['e', '8', 'c', '8', '_']
    else none
  else none

/-- Filtering `range n` by membership in `{i, j}` yields nothing when both
indices lie at or beyond `n`. -/
lemma filter_range_pair_nil {p : Nat → Bool} {i j : Nat} (n : Nat)
    (hp : ∀ k, p k = (decide (k = i) || decide (k = j)))
    (hni : n ≤ i) (hnj : n ≤ j) :
    (List.range n).filter p = [] := by
  induction n with
  | zero => rfl
  | succ m ih =>
    rw [List.range_succ, List.filter_append,
      ih (Nat.le_of_succ_le hni) (Nat.le_of_succ_le hnj)]
    have h1 : m ≠ i := Nat.ne_of_lt hni
    have h2 : m ≠ j := Nat.ne_of_lt hnj
    simp [hp m, h1, h2]

/-- Filtering `range n` by membership in `{i, j}` yields exactly `[i]` when
`i < n ≤ j`. -/
lemma filter_range_pair_single {p : Nat → Bool} {i j : Nat} (n : Nat)
    (hp : ∀ k, p k = (decide (k = i) || decide (k = j)))
    (hi : i < n) (hnj : n ≤ j) :
    (List.range n).filter p = [i] := by
  induction n with
  | zero => exact absurd hi (Nat.not_lt_zero i)
  | succ m ih =>
    rw [List.range_succ, List.filter_append]
    rcases Nat.lt_or_ge i m with him | him
    · rw [ih him (Nat.le_of_succ_le hnj)]
      have h1 : m ≠ i := Nat.ne_of_gt him
      have h2 : m ≠ j := Nat.ne_of_lt hnj
      simp [hp m, h1, h2]
    · have heq : i = m := Nat.le_antisymm (Nat.le_of_lt_succ hi) him
      rw [filter_range_pair_nil m hp (heq ▸ him) (Nat.le_of_succ_le hnj)]
      simp [hp m, heq]

/-- Filtering `range n` by membership in `{i, j}` yields exactly `[i, j]`
when `i < j < n`. -/
lemma filter_range_pair {p : Nat → Bool} {i j : Nat} (n : Nat)
    (hp : ∀ k, p k = (decide (k = i) || decide (k = j)))
    (hij : i < j) (hj : j < n) :
    (List.range n).filter p = [i, j] := by
  induction n with
  | zero => exact absurd hj (Nat.not_lt_zero j)
  | succ m ih =>
    rw [List.range_succ, List.filter_append]
    rcases Nat.lt_or_ge j m with hjm | hjm
    · rw [ih hjm]
      have h1 : m ≠ i := Nat.ne_of_gt (Nat.lt_trans hij hjm)
      have h2 : m ≠ j := Nat.ne_of_gt hjm
      simp [hp m, h1, h2]
    · have heq : j = m := Nat.le_antisymm (Nat.le_of_lt_succ hj) hjm
      rw [filter_range_pair_single m hp (heq ▸ hij) (Nat.le_of_eq heq.symm)]
      simp [hp m, heq]

/-- The XOR of two distinct powers of two has exactly the two exponents as
set bits. -/
lemma testBit_two_pow_xor {i j : Nat} (hij : i ≠ j) (k : Nat) :
    (2 ^ i ^^^ 2 ^ j).testBit k = (decide (k = i) || decide (k = j)) := by
  rw [Nat.testBit_xor, Nat.testBit_two_pow, Nat.testBit_two_pow]
  rcases eq_or_ne i k with h1 | h1
  · subst h1
    simp [Ne.symm hij, hij]
  · rcases eq_or_ne j k with h2 | h2
    · subst h2
      simp [Ne.symm hij, hij, h1, Ne.symm h1]
    · simp [h1, h2, Ne.symm h1, Ne.symm h2]

/-- A two-bit change mask produces exactly the (sorted) changed indices. -/
lemma utils_get_board_changes_pair {i j : Nat} (hij : i < j) (hj : j < 64) :
    utils_get_board_changes (2 ^ i ^^^ 2 ^ j) = [i, j] :=
  filter_range_pair 64 (testBit_two_pow_xor (Nat.ne_of_lt hij)) hij hj

/-- C4.  For boards whose presence masks differ in exactly the two bits `i`
and `j`, `chessboard_get_move` succeeds, and when `i` is occupied on the
previous board while `j` is not, the written move is square-of-`i` (source)
then square-of-`j` (destination) then `'_'`. -/
theorem chessboard_get_move_two_bit (prev cur : chess_board_t) (i j : Nat)
    (hij : i ≠ j) (hi : i < 64) (hj : j < 64)
    (hd : prev.board_presence ^^^ cur.board_presence = 2 ^ i ^^^ 2 ^ j) :
    (chessboard_get_move prev cur).isSome = true ∧
    (prev.board_presence.testBit i = true → prev.board_presence.testBit j = false →
      chessboard_get_move prev cur =
        some [(chessboard_index_to_square i).1, (chessboard_index_to_square i).2,
              (chessboard_index_to_square j).1, (chessboard_index_to_square j).2, '_']) := by
  rcases Nat.lt_or_gt_of_ne hij with hlt | hgt
  · have hpair := utils_get_board_changes_pair hlt hj
    constructor
    · simp only [chessboard_get_move, hd, hpair]
      rw [if_pos (show ([i, j] : List Nat).length = 2 by simp)]
      split <;> simp
    · intro hsi hsj
      simp [chessboard_get_move, hd, hpair, hsi]
  · have hpair := utils_get_board_changes_pair hgt hi
    rw [Nat.xor_comm (2 ^ i) (2 ^ j)] at hd
    constructor
    · simp only [chessboard_get_move, hd, hpair]
      rw [if_pos (show ([j, i] : List Nat).length = 2 by simp)]
      split <;> simp
    · intro hsi hsj
      simp [chessboard_get_move, hd, hpair, hsj]

/-- Witness for C4: from the standard starting position, clearing e2
(index 12) and setting e4 (index 28) is classified as the move e2e4. -/
theorem chessboard_get_move_two_bit_witness :
    chessboard_get_move
      { board_presence := 0xFFFF00000000FFFF, board_pieces := [] }
      { board_presence := 0xFFFF00000000FFFF ^^^ (2 ^ 12 ^^^ 2 ^ 28), board_pieces := [] } =
      some ['e', '2', 'e', '4', '_'] := by
  have h := (chessboard_get_move_two_bit
    { board_presence := 0xFFFF00000000FFFF, board_pieces := [] }
    { board_presence := 0xFFFF00000000FFFF ^^^ (2 ^ 12 ^^^ 2 ^ 28), board_pieces := [] }
    12 28 (by decide) (by decide) (by decide) (by decide)).2 (by decide) (by decide)
  rw [h]
  decide

/-- C5.  On a four-bit presence difference, `chessboard_get_move` returns
the fixed king move of the matching castling footprint and rejects every
other four-bit pattern; any change count other than 2 or 4 is rejected. -/
theorem chessboard_get_move_four_bit (prev cur : chess_board_t) :
    ((utils_get_board_changes (prev.board_presence ^^^ cur.board_presence)).length = 4 →
      chessboard_get_move prev cur =
        (if prev.board_presence ^^^ cur.board_presence = CASTLE_WHITE_K then
          some ['e', '1', 'g', '1', '_']
        else if prev.board_presence ^^^ cur.board_presence = CASTLE_WHITE_Q then
          some ['e', '1', 'c', '1', '_']
        else if prev.board_presence ^^^ cur.board_presence = CASTLE_BLACK_K then
          some ['e', '8', 'g', '8', '_']
        else if prev.board_presence ^^^ cur.board_presence = CASTLE_BLACK_Q then
          some ['e', '8', 'c', '8', '_']
        else none)) ∧
    ((utils_get_board_changes (prev.board_presence ^^^ cur.board_presence)).length ≠ 2 →
      (utils_get_board_changes (prev.board_presence ^^^ cur.board_presence)).length ≠ 4 →
      chessboard_get_move prev cur = none) := by
  constructor
  · intro h4
    simp [chessboard_get_move, h4]
  · intro h2 h4
    simp [chessboard_get_move, h2, h4]

/-- Witness for C5: the white king-side castling footprint applied to the
starting position yields the king move e1g1. -/
theorem chessboard_get_move_four_bit_witness :
    chessboard_get_move
      { board_presence := 0xFFFF00000000FFFF, board_pieces := [] }
      { board_presence := 0xFFFF00000000FFFF ^^^ 0xF0, board_pieces := [] } =
      some ['e', '1', 'g', '1', '_'] := by
  have h := (chessboard_get_move_four_bit
    { board_presence := 0xFFFF00000000FFFF, board_pieces := [] }
    { board_presence := 0xFFFF00000000FFFF ^^^ 0xF0, board_pieces := [] }).1 (by decide)
  rw [h]
  decide

/-! ## Link protocol (`raspberrypi.c`, `raspberrypi.h`)

Bytes are `Nat` values below 256; a transmission is the list of bytes put
on the UART in order. -/

def START_BYTE : Nat := 0x0A
def ACK_BYTE : Nat := 0x0F
def ROBOT_MOVE_INSTR : Nat := 0x04
def ILLEGAL_MOVE_INSTR : Nat := 0x05
def HUMAN_MOVE_INSTR_AND_LEN : Nat := 0x35

/-- `rpi_transmit_human_move`: sends the start byte, the HumanMove
instruction/length byte, then the characters of `move` up to (excluding)
the first NUL terminator.  No check bytes are appended. -/
def rpi_transmit_human_move (move : List Char) : List Nat :=
  START_BYTE :: HUMAN_MOVE_INSTR_AND_LEN ::
    (move.takeWhile (fun c => c ≠ Char.ofNat 0)).map Char.toNat

/-- The complete HumanMove frame required by the wire-format documentation
in `raspberrypi.h` (and by the spec): start byte, instruction/length byte
0x35, the 5 move bytes, then 2 check bytes computed over the preceding 7
bytes by the link checksum `cksum`. -/
def human_move_frame (cksum : List Nat → List Nat) (move : List Char) : List Nat :=
  (START_BYTE :: HUMAN_MOVE_INSTR_AND_LEN :: (move.take 5).map Char.toNat) ++
    cksum (START_BYTE :: HUMAN_MOVE_INSTR_AND_LEN :: (move.take 5).map Char.toNat)

/-- C6 (code bug).  For the concrete NUL-terminated move string `"e2e4_"`,
`rpi_transmit_human_move` puts exactly 7 bytes on the wire — the start
byte, 0x35, and the 5 move characters — and appends no check bytes: the
transmission is 2 bytes short of the documented 9-byte frame and differs
from the framed form (shown here at the checksum instance returning
`[0, 0]`, and forced for every 2-byte checksum by the length gap). -/
theorem rpi_transmit_human_move_no_checksum :
    rpi_transmit_human_move ['e', '2', 'e', '4', '_', Char.ofNat 0] =
      [0x0A, 0x35, 101, 50, 101, 52, 95] ∧
    (rpi_transmit_human_move ['e', '2', 'e', '4', '_', Char.ofNat 0]).length = 7 ∧
    (human_move_frame (fun _ => [0, 0]) ['e', '2', 'e', '4', '_', Char.ofNat 0]).length = 9 ∧
    rpi_transmit_human_move ['e', '2', 'e', '4', '_', Char.ofNat 0] ≠
      human_move_frame (fun _ => [0, 0]) ['e', '2', 'e', '4', '_', Char.ofNat 0] := by
  decide

/-! ## Robot-reply task (`gantry_robot_action` in `gantry.c`)

The action is a function of the receive stream, the two board snapshots
and the command payload.  The checksum and the byte-to-enum conversion
helpers live in `utils.c`, which is not among the sources, so they are
taken as parameters; reading `n` bytes succeeds exactly when `n` bytes are
available (per the spec's decode procedure, a frame whose check bytes are
missing fails validation and is discarded). -/

def GAME_CHECKMATE : Nat := 0x02
def GAME_STALEMATE : Nat := 0x03

inductive chess_move_type_t
  | IDLE
  | MOVE
  | PROMOTION
  | CAPTURE
  | CASTLING
  | EN_PASSENT
  deriving Repr, DecidableEq

inductive game_status_t
  | ONGOING
  | HUMAN_WIN
  | ROBOT_WIN
  | STALEMATE
  deriving Repr, DecidableEq

/-- `chess_move_t`; a `none` file/rank models the `FILE_ERROR`/`RANK_ERROR`
sentinel. -/
structure chess_move_t where
  source_file : Option Nat
  source_rank : Option Nat
  dest_file : Option Nat
  dest_rank : Option Nat
  move_type : chess_move_type_t
  deriving Repr, DecidableEq

structure gantry_command_t where
  move : chess_move_t
  game_status : game_status_t
  robot_move_uci : List Nat
  deriving Repr, DecidableEq

/-- Result of one run of the robot-reply action: the updated command
payload, the updated previous-board snapshot, the bytes transmitted back
to the peer, and the `robot_is_done` flag. -/
structure robot_action_result_t where
  cmd : gantry_command_t
  previous_board : chess_board_t
  sent : List Nat
  robot_is_done : Bool
  deriving Repr, DecidableEq

/-- `gantry_robot_action` (FINAL_IMPLEMENTATION_MODE branch): read the
start byte and the instruction byte; on a RobotMove instruction read 5 move
bytes, the packed status byte and 2 check bytes, validate the checksum over
the 8 frame bytes, and only on success acknowledge, commit
`previous_board := current_board`, record the UCI move and derive the game
status from the two status nibbles; on an IllegalMove instruction validate
the 2 check bytes over the 2 frame bytes and on success acknowledge and go
idle.  Any other outcome changes nothing and transmits nothing. -/
def gantry_robot_action (cksum : List Nat → List Nat)
    (byte_to_file byte_to_rank : Nat → Option Nat)
    (byte_to_move_type : Nat → chess_move_type_t)
    (stream : List Nat) (previous_board current_board : chess_board_t)
    (cmd : gantry_command_t) : robot_action_result_t :=
  match stream with
  | [] => ⟨cmd, previous_board, [], false⟩
  | first_byte :: rest =>
    if first_byte = START_BYTE then
      match rest with
      | [] => ⟨cmd, previous_board, [], false⟩
      | instr_op_len :: rest2 =>
        if instr_op_len >>> 4 = ROBOT_MOVE_INSTR then
          match rest2 with
          | m0 :: m1 :: m2 :: m3 :: m4 :: rest3 =>
            match rest3 with
            | [] => ⟨cmd, previous_board, [], false⟩
            | game_status :: rest4 =>
              match rest4 with
              | c0 :: c1 :: _ =>
                let message := [first_byte, instr_op_len, m0, m1, m2, m3, m4, game_status]
                if [c0, c1] = cksum message then
                  let status_after_human := game_status >>> 4
                  let status_after_robot := game_status &&& 0x0F
                  let populated : chess_move_t :=
                    ⟨byte_to_file m0, byte_to_rank m1, byte_to_file m2, byte_to_rank m3,
                      byte_to_move_type m4⟩
                  let uci := [m0, m1, m2, m3, m4]
                  let cmd' :=
                    if status_after_human = GAME_CHECKMATE then
                      { cmd with
                          game_status := .HUMAN_WIN
                          robot_move_uci := uci
                          move := { cmd.move with move_type := .IDLE } }
                    else if status_after_robot = GAME_CHECKMATE then
                      { cmd with
                          game_status := .ROBOT_WIN
                          robot_move_uci := uci
                          move := populated }
                    else if status_after_human = GAME_STALEMATE then
                      { cmd with
                          game_status := .STALEMATE
                          robot_move_uci := uci
                          move := { cmd.move with move_type := .IDLE } }
                    else if status_after_robot = GAME_STALEMATE then
                      { cmd with
                          game_status := .STALEMATE
                          robot_move_uci := uci
                          move := populated }
                    else
                      { cmd with
                          game_status := .ONGOING
                          robot_move_uci := uci
                          move := populated }
                  ⟨cmd', ⟨current_board.board_presence, current_board.board_pieces⟩,
                    [ACK_BYTE], true⟩
                else ⟨cmd, previous_board, [], false⟩
              | _ => ⟨cmd, previous_board, [], false⟩
          | _ => ⟨cmd, previous_board, [], false⟩
        else if instr_op_len >>> 4 = ILLEGAL_MOVE_INSTR then
          match rest2 with
          | c0 :: c1 :: _ =>
            if [c0, c1] = cksum [first_byte, instr_op_len] then
              ⟨{ cmd with move := { cmd.move with move_type := .IDLE } },
                previous_board, [ACK_BYTE], true⟩
            else ⟨cmd, previous_board, [], false⟩
          | _ => ⟨cmd, previous_board, [], false⟩
        else ⟨cmd, previous_board, [], false⟩
    else ⟨cmd, previous_board, [], false⟩

/-- A complete checksum-valid RobotMove frame heads the stream (the spec's
acceptance condition for the robot-move receive cycle). -/
def robot_frame_ok (cksum : List Nat → List Nat) (stream : List Nat) : Bool :=
  match stream with
  | b0 :: b1 :: m0 :: m1 :: m2 :: m3 :: m4 :: g :: c0 :: c1 :: _ =>
    b0 == START_BYTE && (b1 >>> 4) == ROBOT_MOVE_INSTR &&
      [c0, c1] == cksum [b0, b1, m0, m1, m2, m3, m4, g]
  | _ => false

/-- A complete checksum-valid IllegalMove frame heads the stream. -/
def illegal_frame_ok (cksum : List Nat → List Nat) (stream : List Nat) : Bool :=
  match stream with
  | b0 :: b1 :: c0 :: c1 :: _ =>
    b0 == START_BYTE && (b1 >>> 4) == ILLEGAL_MOVE_INSTR &&
      [c0, c1] == cksum [b0, b1]
  | _ => false

/-- C2 (counterexample).  A checksum-valid IllegalMove frame is not a
RobotMove frame, yet the robot-reply action transmits the acknowledgement
byte for it, contradicting the claim that no acknowledgement is sent unless
a validated RobotMove frame arrives. -/
theorem gantry_robot_action_ack_on_illegal_frame :
    ((0x50 : Nat) >>> 4 ≠ ROBOT_MOVE_INSTR) ∧
    (gantry_robot_action (fun _ => [0, 0]) (fun _ => none) (fun _ => none)
        (fun _ => chess_move_type_t.IDLE) [0x0A, 0x50, 0, 0]
        { board_presence := 1, board_pieces := [] }
        { board_presence := 2, board_pieces := [] }
        ⟨⟨none, none, none, none, .IDLE⟩, .ONGOING, []⟩).sent = [ACK_BYTE] := by
  decide

/-- C2 (amended).  The previous-board snapshot advances to the current
snapshot exactly on receipt of a complete checksum-valid RobotMove frame,
which is also acknowledged; a complete checksum-valid IllegalMove frame is
acknowledged but leaves the snapshot unchanged; in every other case the
snapshot is unchanged and nothing is transmitted. -/
theorem gantry_robot_action_commit_iff
    (cksum : List Nat → List Nat) (b2f b2r : Nat → Option Nat)
    (b2mt : Nat → chess_move_type_t) (stream : List Nat)
    (prev cur : chess_board_t) (cmd : gantry_command_t) :
    (robot_frame_ok cksum stream = true →
      (gantry_robot_action cksum b2f b2r b2mt stream prev cur cmd).previous_board = cur ∧
      (gantry_robot_action cksum b2f b2r b2mt stream prev cur cmd).sent = [ACK_BYTE]) ∧
    (robot_frame_ok cksum stream = false →
      (gantry_robot_action cksum b2f b2r b2mt stream prev cur cmd).previous_board = prev) ∧
    (illegal_frame_ok cksum stream = true →
      (gantry_robot_action cksum b2f b2r b2mt stream prev cur cmd).sent = [ACK_BYTE]) ∧
    (robot_frame_ok cksum stream = false → illegal_frame_ok cksum stream = false →
      (gantry_robot_action cksum b2f b2r b2mt stream prev cur cmd).sent = []) := by
  rcases stream with _ | ⟨b0, _ | ⟨b1, _ | ⟨m0, _ | ⟨m1, _ | ⟨m2, _ | ⟨m3, _ | ⟨m4, _ |
    ⟨g, _ | ⟨c0, _ | ⟨c1, rest⟩⟩⟩⟩⟩⟩⟩⟩⟩⟩ <;>
  · simp only [gantry_robot_action, robot_frame_ok, illegal_frame_ok]
    first
    | (split_ifs <;> simp_all [ROBOT_MOVE_INSTR, ILLEGAL_MOVE_INSTR, START_BYTE, ACK_BYTE])
    | simp_all

/-- Witness for C2 at a concrete validated RobotMove frame: the snapshot
advances and the acknowledgement is transmitted. -/
theorem gantry_robot_action_commit_iff_witness :
    (gantry_robot_action (fun _ => [7, 8]) (fun _ => none) (fun _ => none)
        (fun _ => chess_move_type_t.IDLE) [0x0A, 0x46, 101, 50, 101, 52, 95, 0x11, 7, 8]
        { board_presence := 1, board_pieces := [] }
        { board_presence := 2, board_pieces := ['K'] }
        ⟨⟨none, none, none, none, .IDLE⟩, .ONGOING, []⟩).previous_board =
      { board_presence := 2, board_pieces := ['K'] } ∧
    (gantry_robot_action (fun _ => [7, 8]) (fun _ => none) (fun _ => none)
        (fun _ => chess_move_type_t.IDLE) [0x0A, 0x46, 101, 50, 101, 52, 95, 0x11, 7, 8]
        { board_presence := 1, board_pieces := [] }
        { board_presence := 2, board_pieces := ['K'] }
        ⟨⟨none, none, none, none, .IDLE⟩, .ONGOING, []⟩).sent = [ACK_BYTE] :=
  (gantry_robot_action_commit_iff (fun _ => [7, 8]) (fun _ => none) (fun _ => none)
    (fun _ => chess_move_type_t.IDLE) [0x0A, 0x46, 101, 50, 101, 52, 95, 0x11, 7, 8]
    { board_presence := 1, board_pieces := [] }
    { board_presence := 2, board_pieces := ['K'] }
    ⟨⟨none, none, none, none, .IDLE⟩, .ONGOING, []⟩).1 (by decide)

/-- C3.  For a validated RobotMove frame with packed status byte `g`, the
resulting game status follows the nibble chain: high nibble (status after
the human's move) checkmate gives HUMAN_WIN with the robot's move
suppressed (`move_type = IDLE`); otherwise low nibble checkmate gives
ROBOT_WIN with the move populated from the frame; otherwise stalemate in
the high (resp. low) nibble gives STALEMATE with the move suppressed
(resp. populated); otherwise the game is ONGOING with the move populated.
The UCI move bytes are recorded in every validated case. -/
theorem gantry_robot_action_status_nibbles
    (cksum : List Nat → List Nat) (b2f b2r : Nat → Option Nat)
    (b2mt : Nat → chess_move_type_t)
    (b1 m0 m1 m2 m3 m4 g c0 c1 : Nat) (rest : List Nat)
    (prev cur : chess_board_t) (cmd : gantry_command_t)
    (hb1 : b1 >>> 4 = ROBOT_MOVE_INSTR) (_hg : g < 256)
    (hck : [c0, c1] = cksum [START_BYTE, b1, m0, m1, m2, m3, m4, g]) :
    (gantry_robot_action cksum b2f b2r b2mt
        (START_BYTE :: b1 :: m0 :: m1 :: m2 :: m3 :: m4 :: g :: c0 :: c1 :: rest)
        prev cur cmd).robot_is_done = true ∧
    (gantry_robot_action cksum b2f b2r b2mt
        (START_BYTE :: b1 :: m0 :: m1 :: m2 :: m3 :: m4 :: g :: c0 :: c1 :: rest)
        prev cur cmd).cmd.robot_move_uci = [m0, m1, m2, m3, m4] ∧
    ((gantry_robot_action cksum b2f b2r b2mt
        (START_BYTE :: b1 :: m0 :: m1 :: m2 :: m3 :: m4 :: g :: c0 :: c1 :: rest)
        prev cur cmd).cmd.game_status,
      (gantry_robot_action cksum b2f b2r b2mt
        (START_BYTE :: b1 :: m0 :: m1 :: m2 :: m3 :: m4 :: g :: c0 :: c1 :: rest)
        prev cur cmd).cmd.move) =
      (if g >>> 4 = GAME_CHECKMATE then
        (game_status_t.HUMAN_WIN, { cmd.move with move_type := chess_move_type_t.IDLE })
      else if g &&& 0x0F = GAME_CHECKMATE then
        (game_status_t.ROBOT_WIN, ⟨b2f m0, b2r m1, b2f m2, b2r m3, b2mt m4⟩)
      else if g >>> 4 = GAME_STALEMATE then
        (game_status_t.STALEMATE, { cmd.move with move_type := chess_move_type_t.IDLE })
      else if g &&& 0x0F = GAME_STALEMATE then
        (game_status_t.STALEMATE, ⟨b2f m0, b2r m1, b2f m2, b2r m3, b2mt m4⟩)
      else
        (game_status_t.ONGOING, ⟨b2f m0, b2r m1, b2f m2, b2r m3, b2mt m4⟩)) := by
  simp only [gantry_robot_action, hb1, if_pos rfl, ← hck]
  simp only [if_true]
  split_ifs <;> simp_all

/-- Witness for C3: a concrete validated frame with status byte 0x11 (both
nibbles "ongoing") leaves the game ONGOING with the robot's move fields
populated, and records the UCI bytes. -/
theorem gantry_robot_action_status_nibbles_witness :
    (gantry_robot_action (fun _ => [9, 9]) (fun b => some b) (fun b => some (b + 1))
        (fun _ => chess_move_type_t.MOVE)
        [0x0A, 0x46, 101, 55, 101, 53, 95, 0x11, 9, 9]
        { board_presence := 1, board_pieces := [] }
        { board_presence := 2, board_pieces := [] }
        ⟨⟨none, none, none, none, .IDLE⟩, .ONGOING, []⟩).cmd.game_status =
      game_status_t.ONGOING ∧
    (gantry_robot_action (fun _ => [9, 9]) (fun b => some b) (fun b => some (b + 1))
        (fun _ => chess_move_type_t.MOVE)
        [0x0A, 0x46, 101, 55, 101, 53, 95, 0x11, 9, 9]
        { board_presence := 1, board_pieces := [] }
        { board_presence := 2, board_pieces := [] }
        ⟨⟨none, none, none, none, .IDLE⟩, .ONGOING, []⟩).cmd.robot_move_uci =
      [101, 55, 101, 53, 95] := by
  have h := gantry_robot_action_status_nibbles (fun _ => [9, 9]) (fun b => some b)
    (fun b => some (b + 1)) (fun _ => chess_move_type_t.MOVE)
    0x46 101 55 101 53 95 0x11 9 9 []
    { board_presence := 1, board_pieces := [] }
    { board_presence := 2, board_pieces := [] }
    ⟨⟨none, none, none, none, .IDLE⟩, .ONGOING, []⟩
    (by decide) (by decide) (by decide)
  refine ⟨?_, h.2.1⟩
  have h3 := h.2.2
  rw [if_neg (by decide), if_neg (by decide), if_neg (by decide), if_neg (by decide)] at h3
  exact congrArg Prod.fst h3

/-! ## Robot-reply exit (`gantry_robot_exit` in `gantry.c`)

The exit function only pushes follow-on commands; the embedding returns the
list of pushed commands in push order.  The motion/delay builders and the
`CAPTURE_FILE`/`CAPTURE_RANK`/`HOMING_*` constants live in modules not
among the sources, so builders become constructors of `queued_command_t`
(the fixed-constant homing backoff as an argument-free constructor) and the
missing constants become parameters. -/

inductive queued_command_t
  | stepper_chess_xy (file : Option Nat) (rank : Option Nat) (vx vy : Nat)
  | delay_cmd (ms : Nat)
  | gantry_home_toggle
  | stepper_home_z
  | stepper_home_xy
  | stepper_rel_backoff
  | gantry_human_cmd
  deriving Repr, DecidableEq

/-- `gantry_home`: pushes the homing-flag toggle, the z and xy homing
commands, the homing delay, the fixed backoff move, and the homing-flag
toggle again. -/
def gantry_home (homing_delay_ms : Nat) : List queued_command_t :=
  [.gantry_home_toggle, .stepper_home_z, .stepper_home_xy,
   .delay_cmd homing_delay_ms, .stepper_rel_backoff, .gantry_home_toggle]

/-- `gantry_robot_exit`: dispatch on the move type to push the motion/delay
sequence (each case first checks the `FILE_ERROR`/`RANK_ERROR` sentinels
and pushes nothing on error), then push a fresh human-sense command exactly
when the game status is ONGOING.  `castle_rook_move` stands for
`rpi_castle_get_rook_move`, whose body is not among the sources.  (The
final `chessboard_update_robot_move` call touches only the board snapshot,
not the queue, and is outside this embedding.) -/
def gantry_robot_exit (homing_delay_ms : Nat)
    (capture_file capture_rank : Option Nat)
    (castle_rook_move : chess_move_t → chess_move_t)
    (cmd : gantry_command_t) : List queued_command_t :=
  (match cmd.move.move_type with
   | .MOVE =>
     if cmd.move.source_file = none ∨ cmd.move.source_rank = none then []
     else
       [.stepper_chess_xy cmd.move.source_file cmd.move.source_rank 1 1,
        .delay_cmd 1000,
        .stepper_chess_xy cmd.move.dest_file cmd.move.dest_rank 1 1,
        .delay_cmd 1000] ++ gantry_home homing_delay_ms
   | .PROMOTION =>
     if cmd.move.source_file = none ∨ cmd.move.source_rank = none then []
     else
       [.stepper_chess_xy cmd.move.source_file cmd.move.source_rank 1 1,
        .delay_cmd 1000,
        .stepper_chess_xy capture_file capture_rank 1 1,
        .delay_cmd 1000,
        .stepper_chess_xy capture_file capture_rank 1 1,
        .delay_cmd 1000,
        .stepper_chess_xy cmd.move.dest_file cmd.move.dest_rank 1 1,
        .delay_cmd 1000] ++ gantry_home homing_delay_ms
   | .CAPTURE =>
     if cmd.move.source_file = none ∨ cmd.move.source_rank = none then []
     else
       [.stepper_chess_xy cmd.move.dest_file cmd.move.dest_rank 1 1,
        .delay_cmd 1000,
        .stepper_chess_xy capture_file capture_rank 1 1,
        .delay_cmd 1000,
        .stepper_chess_xy cmd.move.source_file cmd.move.source_rank 1 1,
        .delay_cmd 1000,
        .stepper_chess_xy cmd.move.dest_file cmd.move.dest_rank 1 1,
        .delay_cmd 1000] ++ gantry_home homing_delay_ms
   | .CASTLING =>
     if cmd.move.source_file = none ∨ cmd.move.source_rank = none then []
     else
       [.stepper_chess_xy cmd.move.source_file cmd.move.source_rank 1 1,
        .delay_cmd 1000,
        .stepper_chess_xy cmd.move.dest_file cmd.move.dest_rank 1 1,
        .delay_cmd 1000,
        .stepper_chess_xy (castle_rook_move cmd.move).source_file
          (castle_rook_move cmd.move).source_rank 1 1,
        .delay_cmd 1000,
        .stepper_chess_xy (castle_rook_move cmd.move).dest_file
          (castle_rook_move cmd.move).dest_rank 1 1,
        .delay_cmd 1000] ++ gantry_home homing_delay_ms
   | .EN_PASSENT =>
     if cmd.move.source_file = none ∨ cmd.move.source_rank = none then []
     else
       [.stepper_chess_xy cmd.move.dest_file cmd.move.source_rank 1 1,
        .delay_cmd 1000,
        .stepper_chess_xy capture_file capture_rank 1 1,
        .delay_cmd 1000,
        .stepper_chess_xy cmd.move.source_file cmd.move.source_rank 1 1,
        .delay_cmd 1000,
        .stepper_chess_xy cmd.move.dest_file cmd.move.dest_rank 1 1] ++
         gantry_home homing_delay_ms
   | .IDLE => []) ++
  (if cmd.game_status = game_status_t.ONGOING then [.gantry_human_cmd] else [])

/-- C7.  The robot-reply exit enqueues a fresh human-sense command exactly
when the derived game status is ONGOING; every terminal status terminates
the task chain. -/
theorem gantry_robot_exit_human_sense_iff (homing_delay_ms : Nat)
    (capture_file capture_rank : Option Nat)
    (castle_rook_move : chess_move_t → chess_move_t) (cmd : gantry_command_t) :
    queued_command_t.gantry_human_cmd ∈
        gantry_robot_exit homing_delay_ms capture_file capture_rank
          castle_rook_move cmd ↔
      cmd.game_status = game_status_t.ONGOING := by
  rcases cmd with ⟨⟨sf, sr, df, dr, mt⟩, gs, uci⟩
  cases mt <;> cases gs <;>
    simp only [gantry_robot_exit, gantry_home] <;>
    split_ifs <;> simp_all

/-! ## Transmit task (`gantry_comm_action` in `gantry.c`)

State: the `msg_ready_to_send` flag (set externally by the human-sense exit
and by the retransmission-timeout interrupt), the `comm_is_done` flag, and
whether the retry timer is running. -/

structure comm_state_t where
  msg_ready_to_send : Bool
  comm_is_done : Bool
  comm_timer_running : Bool
  deriving Repr, DecidableEq

structure comm_action_result_t where
  state : comm_state_t
  sent : List Nat
  stream_rest : List Nat
  deriving Repr, DecidableEq

/-- `gantry_comm_action`: when `msg_ready_to_send` is set, transmit the
human move, clear the flag and start the retry timer; otherwise try to read
one byte, and when it is the acknowledgement byte set `comm_is_done` and
stop the timer.  Nothing else is transmitted. -/
def gantry_comm_action (move_to_send : List Char) (stream : List Nat)
    (s : comm_state_t) : comm_action_result_t :=
  if s.msg_ready_to_send then
    ⟨⟨false, s.comm_is_done, true⟩, rpi_transmit_human_move move_to_send, stream⟩
  else
    match stream with
    | [] => ⟨s, [], []⟩
    | b :: rest =>
      if b = ACK_BYTE then
        ⟨⟨s.msg_ready_to_send, true, false⟩, [], rest⟩
      else
        ⟨s, [], rest⟩

/-- C9.  The transmit task never double-sends: the frame goes on the wire
exactly on a call with `msg_ready_to_send` set, which clears the flag;
every call with the flag clear transmits nothing, leaves the flag clear,
and merely polls — `comm_is_done` becomes true exactly when it already was
or the next received byte is the acknowledgement 0x0F. -/
theorem gantry_comm_action_no_double_send (move_to_send : List Char)
    (stream : List Nat) (s : comm_state_t) :
    (s.msg_ready_to_send = true →
      (gantry_comm_action move_to_send stream s).sent =
        rpi_transmit_human_move move_to_send ∧
      (gantry_comm_action move_to_send stream s).state.msg_ready_to_send = false) ∧
    (s.msg_ready_to_send = false →
      (gantry_comm_action move_to_send stream s).sent = [] ∧
      (gantry_comm_action move_to_send stream s).state.msg_ready_to_send = false ∧
      ((gantry_comm_action move_to_send stream s).state.comm_is_done = true ↔
        (s.comm_is_done = true ∨ (stream ≠ [] ∧ stream.headD 0 = ACK_BYTE)))) := by
  rcases stream with _ | ⟨b, rest⟩
  · by_cases hf : s.msg_ready_to_send = true <;>
      simp_all [gantry_comm_action]
  · by_cases hf : s.msg_ready_to_send = true <;>
      by_cases hb : b = ACK_BYTE <;>
      simp_all [gantry_comm_action]

/-- Witness for C9 with the flag clear and the acknowledgement byte next in
the stream: nothing is transmitted and `comm_is_done` is set. -/
theorem gantry_comm_action_no_double_send_witness :
    (gantry_comm_action ['e', '2', 'e', '4', '_'] [0x0F] ⟨false, false, true⟩).sent = [] ∧
    (gantry_comm_action ['e', '2', 'e', '4', '_'] [0x0F]
      ⟨false, false, true⟩).state.msg_ready_to_send = false ∧
    ((gantry_comm_action ['e', '2', 'e', '4', '_'] [0x0F]
        ⟨false, false, true⟩).state.comm_is_done = true ↔
      ((false : Bool) = true ∨ (([0x0F] : List Nat) ≠ [] ∧ ([0x0F] : List Nat).headD 0 = ACK_BYTE))) :=
  (gantry_comm_action_no_double_send ['e', '2', 'e', '4', '_'] [0x0F]
    ⟨false, false, true⟩).2 (by decide)

/-! ## Switch edge detection (`SWITCH_HANDLER` in `switch.c`)

The handler reads the reassigned 16-bit switch image and updates the edge
masks.  The C complement `~current_inputs` on a `uint16_t` field is the
XOR with the 16-bit all-ones mask. -/

structure switch_state_t where
  current_inputs : Nat
  previous_inputs : Nat
  edges : Nat
  pos_transitions : Nat
  neg_transitions : Nat
  deriving Repr, DecidableEq

/-- `SWITCH_HANDLER`: store the new reading, compute the changed bits
against the previous inputs, split them into positive and negative
transitions, and remember the reading as the new previous inputs. -/
def SWITCH_HANDLER (reading : Nat) (s : switch_state_t) : switch_state_t :=
  let current := reading
  let edges := current ^^^ s.previous_inputs
  { current_inputs := current
    previous_inputs := current
    edges := edges
    pos_transitions := current &&& edges
    neg_transitions := ((2 ^ 16 - 1) ^^^ current) &&& edges }

/-- C10.  After a handler run from any state satisfying the invariant
`previous_inputs = current_inputs` (true initially — both zero — and
re-established by every run), the transition masks are disjoint, their
union is the XOR of the new reading with the prior inputs,
`pos_transitions` holds exactly the newly set bits, `neg_transitions`
exactly the newly cleared bits, and `previous_inputs = current_inputs`
again. -/
theorem switch_handler_edge_invariant (reading : Nat) (s : switch_state_t)
    (hr : reading < 2 ^ 16) (hc : s.current_inputs < 2 ^ 16)
    (hpc : s.previous_inputs = s.current_inputs) :
    (SWITCH_HANDLER reading s).pos_transitions &&&
        (SWITCH_HANDLER reading s).neg_transitions = 0 ∧
    (SWITCH_HANDLER reading s).pos_transitions |||
        (SWITCH_HANDLER reading s).neg_transitions =
      reading ^^^ s.current_inputs ∧
    (∀ k, (SWITCH_HANDLER reading s).pos_transitions.testBit k =
      (reading.testBit k && !(s.current_inputs.testBit k))) ∧
    (∀ k, (SWITCH_HANDLER reading s).neg_transitions.testBit k =
      (!(reading.testBit k) && s.current_inputs.testBit k)) ∧
    (SWITCH_HANDLER reading s).previous_inputs =
      (SWITCH_HANDLER reading s).current_inputs := by
  simp only [SWITCH_HANDLER, hpc]
  have hpos : ∀ k, (reading &&& (reading ^^^ s.current_inputs)).testBit k =
      (reading.testBit k && !(s.current_inputs.testBit k)) := by
    intro k
    rw [Nat.testBit_and, Nat.testBit_xor]
    cases reading.testBit k <;> cases s.current_inputs.testBit k <;> rfl
  have hneg : ∀ k, (((2 ^ 16 - 1) ^^^ reading) &&&
      (reading ^^^ s.current_inputs)).testBit k =
      (!(reading.testBit k) && s.current_inputs.testBit k) := by
    intro k
    rw [Nat.testBit_and, Nat.testBit_xor, Nat.testBit_xor,
      Nat.testBit_two_pow_sub_one]
    by_cases hk : k < 16
    · rw [decide_eq_true hk]
      cases reading.testBit k <;> cases s.current_inputs.testBit k <;> rfl
    · have h16 : 16 ≤ k := Nat.le_of_not_lt hk
      have hrk : reading.testBit k = false :=
        Nat.testBit_lt_two_pow
          (Nat.lt_of_lt_of_le hr (Nat.pow_le_pow_right (by norm_num) h16))
      have hck : s.current_inputs.testBit k = false :=
        Nat.testBit_lt_two_pow
          (Nat.lt_of_lt_of_le hc (Nat.pow_le_pow_right (by norm_num) h16))
      simp [hk, hrk, hck]
  refine ⟨?_, ?_, hpos, hneg, trivial⟩
  · apply Nat.eq_of_testBit_eq
    intro k
    rw [Nat.testBit_and, hpos k, hneg k, Nat.zero_testBit]
    cases reading.testBit k <;> cases s.current_inputs.testBit k <;> rfl
  · apply Nat.eq_of_testBit_eq
    intro k
    rw [Nat.testBit_or, hpos k, hneg k, Nat.testBit_xor]
    cases reading.testBit k <;> cases s.current_inputs.testBit k <;> rfl

/-- Witness for C10 at a concrete state and reading. -/
theorem switch_handler_edge_invariant_witness :
    (SWITCH_HANDLER 0xA5 ⟨0x0F, 0x0F, 0, 0, 0⟩).pos_transitions &&&
        (SWITCH_HANDLER 0xA5 ⟨0x0F, 0x0F, 0, 0, 0⟩).neg_transitions = 0 ∧
    (SWITCH_HANDLER 0xA5 ⟨0x0F, 0x0F, 0, 0, 0⟩).pos_transitions |||
        (SWITCH_HANDLER 0xA5 ⟨0x0F, 0x0F, 0, 0, 0⟩).neg_transitions = 0xA5 ^^^ 0x0F := by
  have h := switch_handler_edge_invariant 0xA5 ⟨0x0F, 0x0F, 0, 0, 0⟩
    (by decide) (by decide) (by decide)
  exact ⟨h.1, h.2.1⟩

end Capstone
